import Mathlib

/-!
Shallow embedding of the attendance subsystem of the Aurora backend
(src/routes/staffAttendanceRoutes.js and src/routes/studentAttendanceRoutes.js),
together with theorems settling the specification claims about it.

Modelling conventions:
* Calendar dates / timestamps are milliseconds since the Unix epoch (UTC),
  as a natural number; the JS `Date.getDay` weekday is derived from it.
* JS floating-point percentages are modelled as exact rationals.
* The `staffStatus` column of a staff attendance day record can hold, as
  observed by the JS code, either a (non-empty) string — possibly the JSON
  serialization of an array of per-staff entries, possibly a string that
  parses to some other JSON value, possibly one that does not parse at
  all — or an already-structured non-string value, or SQL null.
* Store reads and writes themselves are assumed to succeed; the modelled
  failure modes are the ones produced by the handlers' own logic
  (thrown TypeErrors, 404 responses, duplicate rejections).
-/

namespace Aurora

/-- One per-staff entry inside a day record's statuses collection:
`{ id: <staffId>, status: <status> }` in the JS source. -/
structure StaffEntry where
  id : String
  status : String
deriving DecidableEq, Repr

/-- The shape of a JSON value as far as the attendance code discriminates it:
an array of per-staff entries, or anything else (`Json.other` covers numbers,
objects, booleans, strings and null produced by `JSON.parse`, none of which
has a `.filter`/`.find` method). -/
inductive Json where
  | arr (l : List StaffEntry)
  | other
deriving DecidableEq, Repr

/-- The raw value of the `staffStatus` column.
`str r` is a non-empty string whose `JSON.parse` result is `r`
(`none` when parsing throws); `val v` is a non-string, non-null value
already structured as `v`; `nullv` is SQL null / undefined. -/
inductive StatusField where
  | str (r : Option Json)
  | val (v : Json)
  | nullv
deriving DecidableEq, Repr

/-- A raw row of the StaffAttendances table as fetched by the routes. -/
structure StaffRecord where
  date : Nat
  staffStatus : StatusField
deriving DecidableEq, Repr

/-- Milliseconds in one day. -/
def msPerDay : Nat := 86400000

/-- JS `new Date(t).getDay()` for a UTC timestamp `t` in milliseconds:
0 = Sunday, …, 6 = Saturday (the epoch, day 0, was a Thursday). -/
def getDay (t : Nat) : Nat := (t / msPerDay + 4) % 7

/-- The value the weekly-rate loop works with after its defensive parse
(`calculateWeeklyAttendanceRate`, lines 22–36): a string is parsed, a parse
failure becomes the empty array, and `Array.isArray` guards the lookup, so a
non-array value yields no list (the record is skipped, not an error). -/
def weeklyStatusOf : StatusField → Option (List StaffEntry)
  | .str (some (.arr l)) => some l
  | .str (some .other) => none
  | .str none => some []
  | .val (.arr l) => some l
  | .val .other => none
  | .nullv => none

/-- The candidate entry a record contributes to the weekly rate
(`calculateWeeklyAttendanceRate`, lines 33–41): the record must lie at or
after `now - 7 days` (there is no upper bound in the source), fall on a
weekday, and contain an entry for the target staff id. -/
def weeklyPick (staffId : String) (now : Nat) (r : StaffRecord) : Option StaffEntry :=
  if now - 7 * msPerDay ≤ r.date ∧ 1 ≤ getDay r.date ∧ getDay r.date ≤ 5 then
    match weeklyStatusOf r.staffStatus with
    | some l => l.find? (fun s => s.id == staffId)
    | none => none
  else none

/-- The weekly rate utility of staffAttendanceRoutes.js
(calculateWeeklyAttendanceRate, lines 10–46), with the implicit
`new Date()` made an explicit `now` parameter. -/
def calculateWeeklyAttendanceRate (records : List StaffRecord) (staffId : String)
    (now : Nat) : ℚ :=
  let counted := records.filterMap (weeklyPick staffId now)
  let totalDays := counted.length
  let presentDays := (counted.filter (fun s => s.status == "present")).length
  if 0 < totalDays then (presentDays : ℚ) / (totalDays : ℚ) * 100 else 0

/-- The per-record extraction step of the summary route (lines 77–88): a
string is parsed, a parse failure becomes the empty array, and then
`.filter` is called on the result — which throws (`none` here) whenever the
value in hand is not an array. -/
def summaryStatusOf : StatusField → Option (List StaffEntry)
  | .str (some (.arr l)) => some l
  | .str (some .other) => none
  | .str none => some []
  | .val (.arr l) => some l
  | .val .other => none
  | .nullv => none

/-- The `filteredAttendance` array of the summary route (lines 76–90): every
raw record is mapped to `(date, entries matching the staff id)`; the whole
map throws (`none`) as soon as one record's status value is not an array. -/
def mapFiltered (staffId : String) : List StaffRecord → Option (List (Nat × List StaffEntry))
  | [] => some []
  | r :: rest =>
    match summaryStatusOf r.staffStatus with
    | none => none
    | some l => (mapFiltered staffId rest).map
        (fun t => (r.date, l.filter (fun s => s.id == staffId)) :: t)

/-- The predicate of line 94 of the summary route:
`r.staffStatus[0]?.status === "present"` on a filtered statuses list
(`undefined === "present"` is false on the empty list). -/
def headPresent (l : List StaffEntry) : Bool :=
  match l.head? with
  | some e => e.status == "present"
  | none => false

/-- The summary payload of GET /api/staffAttendance/:staffId. -/
structure StaffSummary where
  totalDays : Nat
  daysPresent : Nat
  daysAbsent : Nat
  weeklyAttendanceRate : ℚ
  overallAttendanceRate : ℚ
  attendance : List (Nat × List StaffEntry)
deriving DecidableEq, Repr

/-- Failure modes of the staff summary route: the 404 taken when the store
is empty, and the generic caught-exception 500. -/
inductive StaffQueryError where
  | notFound
  | internal
deriving DecidableEq, Repr

/-- GET /api/staffAttendance/:staffId (staffAttendanceRoutes.js lines 54–137):
404 when the store holds no record at all, otherwise the summary computed
from `filteredAttendance`, or a 500 when the extraction step throws. -/
def getStaffAttendanceSummary (records : List StaffRecord) (staffId : String)
    (now : Nat) : Except StaffQueryError StaffSummary :=
  if records.isEmpty then .error .notFound
  else
    match mapFiltered staffId records with
    | none => .error .internal
    | some filteredAttendance =>
      let totalDays := filteredAttendance.length
      let daysPresent := (filteredAttendance.filter (fun p => headPresent p.2)).length
      let daysAbsent := totalDays - daysPresent
      let weekly := calculateWeeklyAttendanceRate records staffId now
      let overall := if 0 < totalDays then (daysPresent : ℚ) / (totalDays : ℚ) * 100 else 0
      .ok ⟨totalDays, daysPresent, daysAbsent, weekly, overall, filteredAttendance⟩

/-- One row of the StudentAttendances table: flat, one row per
(admissionNumber, date) pair. -/
structure StudentRecord where
  admissionNumber : String
  date : Nat
  status : String
deriving DecidableEq, Repr

/-- The rates record computed by `calculateRates` in studentAttendanceRoutes.js. -/
structure StudentRates where
  totalDays : Nat
  presentDays : Nat
  absentDays : Nat
  weeklyAttendanceRate : ℚ
  overallAttendanceRate : ℚ
deriving DecidableEq, Repr

/-- The rates utility of studentAttendanceRoutes.js (calculateRates, lines
11–32), with the implicit `new Date()` made an explicit `now` parameter.
Note the source applies no weekday filter to the weekly window, and no
upper bound at `now`. -/
def calculateRates (records : List StudentRecord) (now : Nat) : StudentRates :=
  let totalDays := records.length
  let presentDays := (records.filter (fun r => r.status == "present")).length
  let absentDays := (records.filter (fun r => r.status == "absent")).length
  let weeklyRecords := records.filter (fun r => decide (now - 7 * msPerDay ≤ r.date))
  let weeklyPresent := (weeklyRecords.filter (fun r => r.status == "present")).length
  let weeklyRate :=
    if 0 < weeklyRecords.length then
      (weeklyPresent : ℚ) / (weeklyRecords.length : ℚ) * 100
    else 0
  let overallRate :=
    if 0 < totalDays then (presentDays : ℚ) / (totalDays : ℚ) * 100 else 0
  ⟨totalDays, presentDays, absentDays, weeklyRate, overallRate⟩

/-- A stored row of the StaffAttendances table, including its primary key
(used by the upsert's `.eq("id", …)` update filter). -/
structure StaffDayRow where
  rowId : Nat
  date : Nat
  staffStatus : StatusField
deriving DecidableEq, Repr

/-- Outcome of POST /api/staffAttendance/:staffId: the 400 validation
response, the 201 created / 200 updated successes, and the caught-exception
500. -/
inductive StaffPostResult where
  | validationError
  | created
  | updated
  | serverError
deriving DecidableEq, Repr

/-- The in-place overwrite `updatedStatuses[index].status = status` applied
to the first entry whose id matches (JS `findIndex` returns the first
match). -/
def setFirstStatus : List StaffEntry → String → String → List StaffEntry
  | [], _, _ => []
  | e :: rest, staffId, status =>
    if e.id == staffId then ⟨e.id, status⟩ :: rest
    else e :: setFirstStatus rest staffId status

/-- The merge step of the staff upsert (lines 227–234), applied to the raw
`staffStatus` value of the existing row. The source never parses the value
here: a (non-empty, hence truthy) string or any other non-array value has no
`findIndex` method, so the step throws a TypeError (`none`); null falls back
to `[]` via `|| []` and the entry is appended. -/
def mergeStatuses (f : StatusField) (staffId status : String) : Option (List StaffEntry) :=
  match f with
  | .str _ => none
  | .val (.arr l) =>
      if l.any (fun e => e.id == staffId) then some (setFirstStatus l staffId status)
      else some (l ++ [⟨staffId, status⟩])
  | .val .other => none
  | .nullv => some [⟨staffId, status⟩]

/-- The update path of the staff upsert (lines 227–244): merge the entry
into the existing row's statuses and write the serialized result back under
the row's id; a thrown merge surfaces as the caught 500. -/
def updateExisting (store : List StaffDayRow) (existing : StaffDayRow)
    (staffId status : String) : StaffPostResult × List StaffDayRow :=
  match mergeStatuses existing.staffStatus staffId status with
  | none => (.serverError, store)
  | some updated =>
    (.updated, store.map (fun r =>
      if r.rowId == existing.rowId then
        { r with staffStatus := .str (some (.arr updated)) }
      else r))

/-- POST /api/staffAttendance/:staffId (staffAttendanceRoutes.js lines
197–249). The lookup uses `.single()`, whose PGRST116 error (no rows, or
more than one row) is ignored, so anything but exactly one row for the date
takes the insert branch. Both the insert and the update serialize the
statuses with `JSON.stringify`, so the stored value is a string that parses
back to the written array. Returns the HTTP outcome and the new store. -/
def markStaffAttendance (store : List StaffDayRow) (nextId : Nat) (staffId : String)
    (date : Nat) (status : String) : StaffPostResult × List StaffDayRow :=
  if status = "" then (.validationError, store)
  else
    match store.filter (fun r => r.date == date) with
    | [existing] => updateExisting store existing staffId status
    | _ => (.created, store ++ [⟨nextId, date, .str (some (.arr [⟨staffId, status⟩]))⟩])

/-- Outcome of POST /student-attendance: 400 when a field is missing, 404
when the student directory lookup fails, 400 "already marked" on a
duplicate, 201 on insert. -/
inductive StudentPostResult where
  | validationError
  | notFoundStudent
  | duplicate
  | created
deriving DecidableEq, Repr

/-- POST /student-attendance (studentAttendanceRoutes.js lines 102–154).
`students` is the list of admission numbers in the Students directory; both
directory lookup and duplicate check use `.single()`, which succeeds exactly
when one row matches. Returns the HTTP outcome and the new store. -/
def markStudentAttendance (students : List String) (store : List StudentRecord)
    (admissionNumber : String) (date : Nat) (status : String) :
    StudentPostResult × List StudentRecord :=
  if admissionNumber = "" ∨ status = "" then (.validationError, store)
  else if (students.filter (fun s => s == admissionNumber)).length ≠ 1 then
    (.notFoundStudent, store)
  else if (store.filter (fun r =>
      r.admissionNumber == admissionNumber && r.date == date)).length = 1 then
    (.duplicate, store)
  else (.created, store ++ [⟨admissionNumber, date, status⟩])

/-- The entries a day's `staffStatus` denotes, when it denotes any: an array
value, or a string serializing an array; anything else denotes no entries. -/
def entriesOf : StatusField → List StaffEntry
  | .str (some (.arr l)) => l
  | .val (.arr l) => l
  | _ => []

/-- The per-day invariant of the spec's data model: at most one entry per
staffId within a day's statuses. -/
def dayOk (f : StatusField) : Prop := ((entriesOf f).map StaffEntry.id).Nodup

/-- Every day record of the store satisfies the per-day invariant. -/
def storeOk (store : List StaffDayRow) : Prop := ∀ r ∈ store, dayOk r.staffStatus

/-- Whether a raw day record carries an entry for the given staff id (after
the summary route's parse step). -/
def hasEntryFor (r : StaffRecord) (staffId : String) : Bool :=
  match summaryStatusOf r.staffStatus with
  | some l => l.any (fun s => s.id == staffId)
  | none => false

/-- The number of per-day present entries among filtered statuses, as counted
by the summary route. -/
def presentCount (l : List (Nat × List StaffEntry)) : Nat :=
  (l.filter (fun p => headPresent p.2)).length

/-- The StudentAttendances invariant of the spec's data model: at most one
row per (admissionNumber, date) pair. -/
def pairwiseDistinctPairs (store : List StudentRecord) : Prop :=
  store.Pairwise (fun a b => ¬(a.admissionNumber = b.admissionNumber ∧ a.date = b.date))

theorem mapFiltered_length (staffId : String) :
    ∀ (records : List StaffRecord) (l : List (Nat × List StaffEntry)),
      mapFiltered staffId records = some l → l.length = records.length := by
  intro records
  induction records with
  | nil =>
    intro l h
    simp only [mapFiltered, Option.some_inj] at h
    subst h; rfl
  | cons r rest ih =>
    intro l h
    simp only [mapFiltered] at h
    cases hs : summaryStatusOf r.staffStatus with
    | none => rw [hs] at h; exact absurd h (by simp)
    | some l0 =>
      rw [hs] at h
      cases hm : mapFiltered staffId rest with
      | none => rw [hm] at h; exact absurd h (by simp)
      | some t =>
        rw [hm] at h
        have hl : (r.date, l0.filter (fun s => s.id == staffId)) :: t = l :=
          Option.some_inj.mp h
        subst hl
        simp [ih t hm]

theorem mapFiltered_isSome (staffId : String) :
    ∀ (records : List StaffRecord),
      (∀ r ∈ records, (summaryStatusOf r.staffStatus).isSome) →
      ∃ l, mapFiltered staffId records = some l := by
  intro records
  induction records with
  | nil => intro _; exact ⟨[], rfl⟩
  | cons r rest ih =>
    intro h
    obtain ⟨l0, hs⟩ := Option.isSome_iff_exists.mp (h r (List.mem_cons_self r rest))
    obtain ⟨t, hm⟩ := ih (fun x hx => h x (List.mem_cons_of_mem r hx))
    exact ⟨(r.date, l0.filter (fun s => s.id == staffId)) :: t, by
      simp [mapFiltered, hs, hm]⟩

theorem mapFiltered_nil_entries (staffId : String) :
    ∀ (records : List StaffRecord) (l : List (Nat × List StaffEntry)),
      mapFiltered staffId records = some l →
      (∀ r ∈ records, hasEntryFor r staffId = false) →
      ∀ p ∈ l, p.2 = [] := by
  intro records
  induction records with
  | nil =>
    intro l h _
    simp only [mapFiltered, Option.some_inj] at h
    subst h; simp
  | cons r rest ih =>
    intro l h hno p hp
    simp only [mapFiltered] at h
    cases hs : summaryStatusOf r.staffStatus with
    | none => rw [hs] at h; exact absurd h (by simp)
    | some l0 =>
      rw [hs] at h
      cases hm : mapFiltered staffId rest with
      | none => rw [hm] at h; exact absurd h (by simp)
      | some t =>
        rw [hm] at h
        have hl : (r.date, l0.filter (fun s => s.id == staffId)) :: t = l :=
          Option.some_inj.mp h
        subst hl
        rcases List.mem_cons.mp hp with hp | hp
        · subst hp
          have hzero : l0.any (fun s => s.id == staffId) = false := by
            have := hno r (List.mem_cons_self r rest)
            simpa [hasEntryFor, hs] using this
          simp only [List.any_eq_false] at hzero
          simp only [List.filter_eq_nil_iff]
          intro a ha
          exact hzero a ha
        · exact ih t hm (fun x hx => hno x (List.mem_cons_of_mem r hx)) p hp

theorem summary_eq_ok (records : List StaffRecord) (staffId : String) (now : Nat)
    (l : List (Nat × List StaffEntry)) (hne : records ≠ [])
    (hm : mapFiltered staffId records = some l) :
    getStaffAttendanceSummary records staffId now =
      .ok ⟨l.length, presentCount l, l.length - presentCount l,
           calculateWeeklyAttendanceRate records staffId now,
           (if 0 < l.length then (presentCount l : ℚ) / (l.length : ℚ) * 100 else 0), l⟩ := by
  obtain ⟨r, rest, rfl⟩ := List.exists_cons_of_ne_nil hne
  simp [getStaffAttendanceSummary, hm, presentCount]

theorem summary_eq_err (records : List StaffRecord) (staffId : String) (now : Nat)
    (hne : records ≠ []) (hm : mapFiltered staffId records = none) :
    getStaffAttendanceSummary records staffId now = .error .internal := by
  obtain ⟨r, rest, rfl⟩ := List.exists_cons_of_ne_nil hne
  simp [getStaffAttendanceSummary, hm]

theorem summary_ok_inv (records : List StaffRecord) (staffId : String) (now : Nat)
    (s : StaffSummary) (h : getStaffAttendanceSummary records staffId now = .ok s) :
    ∃ l, mapFiltered staffId records = some l ∧ records ≠ [] ∧
      s = ⟨l.length, presentCount l, l.length - presentCount l,
           calculateWeeklyAttendanceRate records staffId now,
           (if 0 < l.length then (presentCount l : ℚ) / (l.length : ℚ) * 100 else 0), l⟩ := by
  by_cases hne : records = []
  · subst hne; simp [getStaffAttendanceSummary] at h
  · cases hm : mapFiltered staffId records with
    | none =>
      rw [summary_eq_err records staffId now hne hm] at h
      exact absurd h (by simp)
    | some l =>
      rw [summary_eq_ok records staffId now l hne hm] at h
      exact ⟨l, rfl, hne, ((Except.ok.injEq _ _).mp h).symm⟩

theorem setFirstStatus_map_id :
    ∀ (l : List StaffEntry) (a s : String),
      (setFirstStatus l a s).map StaffEntry.id = l.map StaffEntry.id := by
  intro l a s
  induction l with
  | nil => rfl
  | cons e rest ih =>
    simp only [setFirstStatus]
    by_cases he : (e.id == a) = true
    · simp [he]
    · simp only [he]
      simp [ih]

theorem mergeStatuses_nodup (f : StatusField) (a s : String) (l : List StaffEntry)
    (hf : dayOk f) (h : mergeStatuses f a s = some l) :
    (l.map StaffEntry.id).Nodup := by
  cases f with
  | str r => exact absurd h (by simp [mergeStatuses])
  | nullv =>
    simp only [mergeStatuses, Option.some_inj] at h
    subst h; simp
  | val v =>
    cases v with
    | other => exact absurd h (by simp [mergeStatuses])
    | arr l0 =>
      simp only [mergeStatuses] at h
      by_cases hany : (l0.any (fun e => e.id == a)) = true
      · rw [if_pos hany] at h
        cases h
        rw [setFirstStatus_map_id]
        simpa [dayOk, entriesOf] using hf
      · rw [if_neg hany] at h
        cases h
        have hnodup : (l0.map StaffEntry.id).Nodup := by simpa [dayOk, entriesOf] using hf
        have hnotin : a ∉ l0.map StaffEntry.id := by
          simp only [Bool.not_eq_true, List.any_eq_false] at hany
          simp only [List.mem_map]
          rintro ⟨e, he, rfl⟩
          exact absurd (hany e he) (by simp)
        simp only [List.map_append, List.map_cons, List.map_nil]
        exact List.Nodup.append hnodup (List.nodup_singleton a)
          (by simpa [List.disjoint_singleton] using hnotin)

theorem filterPair_length_le_one (store : List StudentRecord)
    (h : pairwiseDistinctPairs store) (a : String) (d : Nat) :
    (store.filter (fun r => r.admissionNumber == a && r.date == d)).length ≤ 1 := by
  induction store with
  | nil => simp
  | cons x rest ih =>
    have hpw := (List.pairwise_cons.mp h)
    by_cases hx : (x.admissionNumber == a && x.date == d) = true
    · rw [List.filter_cons, if_pos hx]
      have hrest : rest.filter (fun r => r.admissionNumber == a && r.date == d) = [] := by
        rw [List.filter_eq_nil_iff]
        intro y hy hyq
        simp only [Bool.and_eq_true, beq_iff_eq] at hx hyq
        exact hpw.1 y hy ⟨hx.1.trans hyq.1.symm, hx.2.trans hyq.2.symm⟩
      rw [hrest]
      simp
    · rw [List.filter_cons, if_neg hx]
      exact ih hpw.2

/-- C1 (as stated, refuted): in the staff summary, a day record whose
statuses contain no entry for the requested staffId still contributes to
`totalDays` — here a store of one such record yields `totalDays = 1` while
the number of day records carrying an entry for the staffId is `0`. -/
theorem c1_counterexample :
    getStaffAttendanceSummary [⟨0, .val (.arr [⟨"S2", "present"⟩])⟩] "S1" 0
      = Except.ok ⟨1, 0, 1, 0, 0, [(0, [])]⟩ ∧
    (List.filter (fun r => hasEntryFor r "S1")
        [(⟨0, .val (.arr [⟨"S2", "present"⟩])⟩ : StaffRecord)]).length = 0 := by
  constructor
  · simp [getStaffAttendanceSummary, mapFiltered, summaryStatusOf,
      calculateWeeklyAttendanceRate, weeklyPick, weeklyStatusOf, getDay, msPerDay,
      headPresent]
  · decide

/-- C1 (amended): `totalDays` of the staff summary equals the number of day
records in the store, whether or not they carry an entry for the requested
staffId (every record survives the `map` of lines 76–90). -/
theorem c1_totalDays_counts_every_record (records : List StaffRecord) (staffId : String)
    (now : Nat) (hne : records ≠ [])
    (hok : ∀ r ∈ records, (summaryStatusOf r.staffStatus).isSome) :
    ∃ s, getStaffAttendanceSummary records staffId now = Except.ok s ∧
      s.totalDays = records.length := by
  obtain ⟨l, hm⟩ := mapFiltered_isSome staffId records hok
  exact ⟨_, summary_eq_ok records staffId now l hne hm,
    mapFiltered_length staffId records l hm⟩

/-- Witness for the amended C1 at a concrete one-record store. -/
theorem c1_witness :
    ∃ s, getStaffAttendanceSummary [⟨0, .val (.arr [])⟩] "W1" 0 = Except.ok s ∧
      s.totalDays = [(⟨0, .val (.arr [])⟩ : StaffRecord)].length :=
  c1_totalDays_counts_every_record [⟨0, .val (.arr [])⟩] "W1" 0 (by simp)
    (by intro r hr; rw [List.mem_singleton] at hr; subst hr; rfl)

/-- C9 (as stated, refuted): the summary computation does fail on a record
whose staffStatus string parses to a non-array JSON value — the per-record
`.filter` call throws, surfacing as the caught 500. -/
theorem c9_counterexample :
    getStaffAttendanceSummary [⟨0, .str (some .other)⟩] "S1" 0
      = Except.error .internal := by
  simp [getStaffAttendanceSummary, mapFiltered, summaryStatusOf]

/-- C9 (amended): the aggregation completes whenever every record's
staffStatus is an array, serializes an array, or fails to parse; an
unparseable staffStatus is treated as an empty collection (contributing an
empty statuses list and no weekly entry), and rates are zero on empty
input. -/
theorem c9_aggregation_amended :
    (∀ (records : List StaffRecord) (staffId : String) (now : Nat), records ≠ [] →
      (∀ r ∈ records, (summaryStatusOf r.staffStatus).isSome) →
      ∃ s, getStaffAttendanceSummary records staffId now = Except.ok s) ∧
    summaryStatusOf (.str none) = some [] ∧
    (∀ (staffId : String) (now : Nat) (r : StaffRecord), r.staffStatus = .str none →
      weeklyPick staffId now r = none) ∧
    (∀ (staffId : String) (now : Nat), calculateWeeklyAttendanceRate [] staffId now = 0) ∧
    (∀ now : Nat, (calculateRates [] now).weeklyAttendanceRate = 0 ∧
      (calculateRates [] now).overallAttendanceRate = 0) := by
  refine ⟨?_, rfl, ?_, ?_, ?_⟩
  · intro records staffId now hne hok
    obtain ⟨l, hm⟩ := mapFiltered_isSome staffId records hok
    exact ⟨_, summary_eq_ok records staffId now l hne hm⟩
  · intro staffId now r hr
    unfold weeklyPick
    split
    · rw [hr]; rfl
    · rfl
  · intro staffId now; rfl
  · intro now; exact ⟨rfl, rfl⟩

/-- Witness for the amended C9: a store whose one record has an unparseable
staffStatus still yields a summary. -/
theorem c9_witness :
    ∃ s, getStaffAttendanceSummary [⟨7, .str none⟩] "W3" 3 = Except.ok s :=
  c9_aggregation_amended.1 [⟨7, .str none⟩] "W3" 3 (by simp)
    (by intro r hr; rw [List.mem_singleton] at hr; subst hr; rfl)

/-- C10: the staff summary reports not-found exactly when the store is
empty, and on a non-empty store a staffId appearing in no record still gets
a summary with `totalDays` the store size and `daysPresent = 0`. -/
theorem c10_notfound_iff_empty (records : List StaffRecord) (staffId : String) (now : Nat) :
    (getStaffAttendanceSummary records staffId now = Except.error .notFound ↔ records = []) ∧
    ((∀ r ∈ records, (summaryStatusOf r.staffStatus).isSome) →
      (∀ r ∈ records, hasEntryFor r staffId = false) → records ≠ [] →
      ∃ s, getStaffAttendanceSummary records staffId now = Except.ok s ∧
        s.totalDays = records.length ∧ s.daysPresent = 0) := by
  constructor
  · constructor
    · intro h
      by_contra hne
      cases hm : mapFiltered staffId records with
      | none =>
        rw [summary_eq_err records staffId now hne hm] at h
        exact absurd h (by simp)
      | some l =>
        rw [summary_eq_ok records staffId now l hne hm] at h
        exact absurd h (by simp)
    · intro h; subst h; rfl
  · intro hok hno hne
    obtain ⟨l, hm⟩ := mapFiltered_isSome staffId records hok
    refine ⟨_, summary_eq_ok records staffId now l hne hm,
      mapFiltered_length staffId records l hm, ?_⟩
    have hnil := mapFiltered_nil_entries staffId records l hm hno
    show presentCount l = 0
    simp only [presentCount, List.length_eq_zero]
    rw [List.filter_eq_nil_iff]
    intro p hp
    have hp2 : p.2 = [] := hnil p hp
    simp [headPresent, hp2]

/-- Witness for C10 at a concrete store not containing the staffId. -/
theorem c10_witness :
    ∃ s, getStaffAttendanceSummary [⟨5, .str none⟩] "W2" 0 = Except.ok s ∧
      s.totalDays = [(⟨5, .str none⟩ : StaffRecord)].length ∧ s.daysPresent = 0 :=
  (c10_notfound_iff_empty [⟨5, .str none⟩] "W2" 0).2
    (by intro r hr; rw [List.mem_singleton] at hr; subst hr; rfl)
    (by intro r hr; rw [List.mem_singleton] at hr; subst hr; rfl)
    (by simp)

/-- C2 (as stated, refuted): the weekly rate is affected by records the
claim excludes — a Saturday record inside the trailing week is counted by
the student variant (rate 100, not 0), and a record dated after `now` is
counted by the staff variant. -/
theorem c2_counterexample :
    getDay (19805 * msPerDay) = 6 ∧
    (calculateRates [⟨"A", 19805 * msPerDay, "present"⟩]
        (19805 * msPerDay)).weeklyAttendanceRate = 100 ∧
    19801 * msPerDay < 19802 * msPerDay ∧
    calculateWeeklyAttendanceRate [⟨19802 * msPerDay, .val (.arr [⟨"S1", "present"⟩])⟩]
        "S1" (19801 * msPerDay) = 100 := by
  refine ⟨by decide, ?_, by decide, ?_⟩
  · norm_num [calculateRates, msPerDay]
  · have hcnt : List.filterMap (weeklyPick "S1" (19801 * msPerDay))
        [⟨19802 * msPerDay, .val (.arr [⟨"S1", "present"⟩])⟩]
        = [(⟨"S1", "present"⟩ : StaffEntry)] := by decide
    have hflt : List.filter (fun s => s.status == "present")
        [(⟨"S1", "present"⟩ : StaffEntry)] = [⟨"S1", "present"⟩] := by decide
    simp only [calculateWeeklyAttendanceRate, hcnt, hflt, List.length_cons,
      List.length_nil]
    norm_num

/-- C2 (amended): the weekly window has no upper bound at `now`; a record
below `now - 7 days` never affects either variant's rate, a weekend record
or one without a matching entry never affects the staff variant's rate, the
student variant applies no weekday restriction, and the rate is 0 when no
counted record exists. -/
theorem c2_weekly_window_amended :
    (∀ (records : List StaffRecord) (staffId : String) (now : Nat) (r : StaffRecord),
      (r.date < now - 7 * msPerDay ∨ getDay r.date = 0 ∨ getDay r.date = 6) →
      calculateWeeklyAttendanceRate (r :: records) staffId now
        = calculateWeeklyAttendanceRate records staffId now) ∧
    (∀ (records : List StudentRecord) (now : Nat) (r : StudentRecord),
      r.date < now - 7 * msPerDay →
      (calculateRates (r :: records) now).weeklyAttendanceRate
        = (calculateRates records now).weeklyAttendanceRate) ∧
    (∀ (records : List StaffRecord) (staffId : String) (now : Nat),
      records.filterMap (weeklyPick staffId now) = [] →
      calculateWeeklyAttendanceRate records staffId now = 0) ∧
    (∀ (records : List StudentRecord) (now : Nat),
      records.filter (fun r => decide (now - 7 * msPerDay ≤ r.date)) = [] →
      (calculateRates records now).weeklyAttendanceRate = 0) := by
  refine ⟨?_, ?_, ?_, ?_⟩
  · intro records staffId now r hr
    have hnone : weeklyPick staffId now r = none := by
      unfold weeklyPick
      rw [if_neg]
      rintro ⟨h1, h2, h3⟩
      rcases hr with hr | hr | hr
      · omega
      · rw [hr] at h2; omega
      · rw [hr] at h3; omega
    simp [calculateWeeklyAttendanceRate, List.filterMap_cons, hnone]
  · intro records now r hr
    have hfalse : (decide (now - 7 * msPerDay ≤ r.date)) = false := by
      simp only [decide_eq_false_iff_not]
      omega
    have hcons : List.filter (fun x => decide (now - 7 * msPerDay ≤ x.date)) (r :: records)
        = List.filter (fun x => decide (now - 7 * msPerDay ≤ x.date)) records := by
      simp only [List.filter_cons, hfalse]
      simp
    simp only [calculateRates, hcons]
  · intro records staffId now hemp
    simp [calculateWeeklyAttendanceRate, hemp]
  · intro records now hemp
    simp only [calculateRates, hemp]
    simp

/-- Witness for the amended C2: a record seven-plus days old leaves the
staff weekly rate unchanged. -/
theorem c2_witness :
    calculateWeeklyAttendanceRate [⟨0, .nullv⟩] "W6" (10 * msPerDay)
      = calculateWeeklyAttendanceRate [] "W6" (10 * msPerDay) :=
  c2_weekly_window_amended.1 [] "W6" (10 * msPerDay) ⟨0, .nullv⟩
    (Or.inl (by decide))

/-- C3 (as stated, refuted): the student variant does not compute
`absentDays` as `totalDays - presentDays` — on one record of status
`"late"` it reports `absentDays = 0` while the subtraction gives 1. -/
theorem c3_counterexample :
    (calculateRates [⟨"A", 0, "late"⟩] 0).absentDays = 0 ∧
    (calculateRates [⟨"A", 0, "late"⟩] 0).totalDays
      - (calculateRates [⟨"A", 0, "late"⟩] 0).presentDays = 1 := by
  decide

/-- C3 (amended): `presentDays` counts status == present in both variants;
`absentDays` is counted independently (status == absent, tolerating other
statuses) in the STUDENT variant, while the STAFF variant computes
`daysAbsent = totalDays - daysPresent`. -/
theorem c3_absent_counts_amended :
    (∀ (records : List StudentRecord) (now : Nat),
      (calculateRates records now).presentDays
          = (records.filter (fun r => r.status == "present")).length ∧
      (calculateRates records now).absentDays
          = (records.filter (fun r => r.status == "absent")).length) ∧
    (∀ (records : List StaffRecord) (staffId : String) (now : Nat) (s : StaffSummary),
      getStaffAttendanceSummary records staffId now = Except.ok s →
      s.daysAbsent = s.totalDays - s.daysPresent) := by
  constructor
  · intro records now; exact ⟨rfl, rfl⟩
  · intro records staffId now s h
    obtain ⟨l, hm, hne, rfl⟩ := summary_ok_inv records staffId now s h
    rfl

/-- Witness for the amended C3 on a concrete staff store. -/
theorem c3_witness :
    (⟨1, 0, 1, 0, 0, [(4, [])]⟩ : StaffSummary).daysAbsent
      = (⟨1, 0, 1, 0, 0, [(4, [])]⟩ : StaffSummary).totalDays
        - (⟨1, 0, 1, 0, 0, [(4, [])]⟩ : StaffSummary).daysPresent :=
  c3_absent_counts_amended.2 [⟨4, .val (.arr [])⟩] "W5" 2 ⟨1, 0, 1, 0, 0, [(4, [])]⟩
    (by simp [getStaffAttendanceSummary, mapFiltered, summaryStatusOf,
      calculateWeeklyAttendanceRate, weeklyPick, weeklyStatusOf, getDay, msPerDay,
      headPresent])

/-- C8 (as stated, refuted): the overall rate is not zero exactly when
`totalDays` is zero — one absent record gives rate 0 with `totalDays = 1`. -/
theorem c8_counterexample :
    (calculateRates [⟨"A", 0, "absent"⟩] 0).overallAttendanceRate = 0 ∧
    (calculateRates [⟨"A", 0, "absent"⟩] 0).totalDays = 1 := by
  constructor
  · norm_num [calculateRates, msPerDay]
    all_goals decide
  · decide

/-- C8 (amended): the overall rate is 0 when `totalDays = 0` and otherwise
equals `100 * presentDays / totalDays` exactly, in both variants (so it is
also 0 whenever `presentDays = 0` with `totalDays` positive). -/
theorem c8_overall_rate_amended :
    (∀ (records : List StudentRecord) (now : Nat),
      (calculateRates records now).overallAttendanceRate
        = if records.length = 0 then 0
          else ((records.filter (fun r => r.status == "present")).length : ℚ)
            / (records.length : ℚ) * 100) ∧
    (∀ (records : List StaffRecord) (staffId : String) (now : Nat) (s : StaffSummary),
      getStaffAttendanceSummary records staffId now = Except.ok s →
      0 < s.totalDays ∧
      s.overallAttendanceRate = (s.daysPresent : ℚ) / (s.totalDays : ℚ) * 100) := by
  constructor
  · intro records now
    rcases Nat.eq_zero_or_pos records.length with hz | hp
    · simp [calculateRates, hz, List.length_eq_zero.mp hz]
    · rw [if_neg (Nat.pos_iff_ne_zero.mp hp)]
      simp [calculateRates, hp]
  · intro records staffId now s h
    obtain ⟨l, hm, hne, rfl⟩ := summary_ok_inv records staffId now s h
    have hlen : l.length = records.length := mapFiltered_length staffId records l hm
    have hpos : 0 < l.length := by
      rw [hlen]
      exact List.length_pos.mpr hne
    exact ⟨hpos, by simp [if_pos hpos]⟩

/-- Witness for the amended C8 on a concrete staff store. -/
theorem c8_witness :
    0 < (⟨1, 0, 1, 0, 0, [(3, [])]⟩ : StaffSummary).totalDays ∧
    (⟨1, 0, 1, 0, 0, [(3, [])]⟩ : StaffSummary).overallAttendanceRate
      = ((⟨1, 0, 1, 0, 0, [(3, [])]⟩ : StaffSummary).daysPresent : ℚ)
        / ((⟨1, 0, 1, 0, 0, [(3, [])]⟩ : StaffSummary).totalDays : ℚ) * 100 :=
  c8_overall_rate_amended.2 [⟨3, .val (.arr [])⟩] "W4" 2 ⟨1, 0, 1, 0, 0, [(3, [])]⟩
    (by simp [getStaffAttendanceSummary, mapFiltered, summaryStatusOf,
      calculateWeeklyAttendanceRate, weeklyPick, weeklyStatusOf, getDay, msPerDay,
      headPresent])

/-- C4: the create path works as claimed, but the update path does not —
on a day record the endpoint itself created (serialized statuses string),
a second upsert for that date throws (`staffStatus.findIndex` is not a
function) and surfaces as the caught 500, not as result "updated". -/
theorem c4_update_path_throws :
    markStaffAttendance [] 1 "S1" 100 "present"
      = (.created, [⟨1, 100, .str (some (.arr [⟨"S1", "present"⟩]))⟩]) ∧
    (markStaffAttendance [⟨1, 100, .str (some (.arr [⟨"S1", "present"⟩]))⟩]
        2 "S3" 100 "absent").1 = .serverError := by
  decide

/-- C5: the at-most-one-entry-per-staffId invariant is preserved by every
staff upsert, and after upserting (date, staffId, "present") twice in a row
starting from an empty store, the day record's statuses hold exactly one
entry for that staffId with value "present". -/
theorem c5_statuses_unique_preserved :
    (∀ (store : List StaffDayRow) (nextId : Nat) (staffId : String) (date : Nat)
        (status : String), storeOk store →
      storeOk (markStaffAttendance store nextId staffId date status).2) ∧
    (∀ (staffId : String) (date n m : Nat),
      ((markStaffAttendance (markStaffAttendance [] n staffId date "present").2
          m staffId date "present").2.map (fun r => entriesOf r.staffStatus))
        = [[⟨staffId, "present"⟩]]) := by
  constructor
  · intro store nextId staffId date status hstore
    unfold markStaffAttendance
    by_cases hst : status = ""
    · rw [if_pos hst]; exact hstore
    · rw [if_neg hst]
      rcases hf : store.filter (fun r => r.date == date) with _ | ⟨existing, rest⟩
      · rw [hf]
        intro r hr
        rcases List.mem_append.mp hr with hr | hr
        · exact hstore r hr
        · rw [List.mem_singleton] at hr
          subst hr
          simp [dayOk, entriesOf]
      · rcases rest with _ | ⟨e2, t⟩
        · rw [hf]
          have hex : existing ∈ store := by
            apply List.mem_of_mem_filter (p := fun r => r.date == date)
            rw [hf]
            exact List.mem_singleton_self existing
          show storeOk (updateExisting store existing staffId status).2
          unfold updateExisting
          cases hm : mergeStatuses existing.staffStatus staffId status with
          | none => exact hstore
          | some updated =>
            intro r' hr'
            obtain ⟨r, hr, rfl⟩ := List.mem_map.mp hr'
            by_cases hid : (r.rowId == existing.rowId) = true
            · rw [if_pos hid]
              show dayOk (.str (some (.arr updated)))
              simp only [dayOk, entriesOf]
              exact mergeStatuses_nodup existing.staffStatus staffId status updated
                (hstore existing hex) hm
            · rw [if_neg hid]
              exact hstore r hr
        · rw [hf]
          intro r hr
          rcases List.mem_append.mp hr with hr | hr
          · exact hstore r hr
          · rw [List.mem_singleton] at hr
            subst hr
            simp [dayOk, entriesOf]
  · intro staffId date n m
    have h1 : markStaffAttendance [] n staffId date "present"
        = (.created, [⟨n, date, .str (some (.arr [⟨staffId, "present"⟩]))⟩]) := by
      unfold markStaffAttendance
      rw [if_neg (by decide : ¬(("present" : String) = ""))]
      rfl
    rw [h1]
    unfold markStaffAttendance
    rw [if_neg (by decide : ¬(("present" : String) = ""))]
    simp [updateExisting, mergeStatuses, entriesOf]

/-- Witness for C5's invariant preservation on a concrete upsert. -/
theorem c5_witness : storeOk (markStaffAttendance [] 1 "S1" 3 "present").2 :=
  c5_statuses_unique_preserved.1 [] 1 "S1" 3 "present" (by intro r hr; simp at hr)

/-- C6: on a day record the endpoint itself created for S1, the upsert for
a second staff member S2 does not add S2's entry — it throws (serialized
statuses string has no findIndex) and surfaces as the caught 500; S1's
entry survives only because the store is left untouched. -/
theorem c6_second_staff_upsert_throws :
    (markStaffAttendance (markStaffAttendance [] 1 "S1" 200 "present").2
        2 "S2" 200 "absent").1 = .serverError ∧
    ((markStaffAttendance (markStaffAttendance [] 1 "S1" 200 "present").2
        2 "S2" 200 "absent").2.map (fun r => entriesOf r.staffStatus))
      = [[⟨"S1", "present"⟩]] := by
  decide

/-- C7: under the one-row-per-(admissionNumber, date) store invariant, a
mark for an already-marked pair is rejected as a duplicate with the store
unchanged, and marking the same pair twice from a fresh state fails the
second call while the store gains exactly one row. -/
theorem c7_duplicate_rejected :
    (∀ (students : List String) (store : List StudentRecord) (a : String) (d : Nat)
        (st : String), pairwiseDistinctPairs store →
      a ≠ "" → st ≠ "" → (students.filter (fun s => s == a)).length = 1 →
      (∃ r ∈ store, r.admissionNumber = a ∧ r.date = d) →
      markStudentAttendance students store a d st = (.duplicate, store)) ∧
    (∀ (students : List String) (store : List StudentRecord) (a : String) (d : Nat)
        (st : String), pairwiseDistinctPairs store →
      (markStudentAttendance students store a d st).1 = .created →
      (markStudentAttendance students (markStudentAttendance students store a d st).2
          a d st).1 = .duplicate ∧
      (markStudentAttendance students (markStudentAttendance students store a d st).2
          a d st).2 = (markStudentAttendance students store a d st).2 ∧
      (markStudentAttendance students store a d st).2.length = store.length + 1) := by
  constructor
  · rintro students store a d st hpair ha hst hcount ⟨r, hr, hra, hrd⟩
    have h1 : ¬(a = "" ∨ st = "") := by
      rintro (h | h)
      · exact ha h
      · exact hst h
    have hone : (store.filter (fun x => x.admissionNumber == a && x.date == d)).length = 1 := by
      have hle := filterPair_length_le_one store hpair a d
      have hmem : r ∈ store.filter (fun x => x.admissionNumber == a && x.date == d) := by
        rw [List.mem_filter]
        exact ⟨hr, by simp [hra, hrd]⟩
      have hpos := List.length_pos.mpr (List.ne_nil_of_mem hmem)
      omega
    simp [markStudentAttendance, h1, hcount, hone]
  · intro students store a d st hpair hcr
    by_cases h1 : a = "" ∨ st = ""
    · simp [markStudentAttendance, h1] at hcr
    · by_cases h2 : (students.filter (fun s => s == a)).length = 1
      · by_cases h3 : (store.filter (fun r => r.admissionNumber == a && r.date == d)).length = 1
        · simp [markStudentAttendance, h1, h2, h3] at hcr
        · have hlen0 : (store.filter
              (fun r => r.admissionNumber == a && r.date == d)).length = 0 := by
            have hle := filterPair_length_le_one store hpair a d
            omega
          have hnil : store.filter (fun r => r.admissionNumber == a && r.date == d) = [] :=
            List.length_eq_zero.mp hlen0
          have hstore2 : (markStudentAttendance students store a d st).2
              = store ++ [⟨a, d, st⟩] := by
            simp [markStudentAttendance, h1, h2, h3]
          have hfilter2 : (store ++ [(⟨a, d, st⟩ : StudentRecord)]).filter
              (fun r => r.admissionNumber == a && r.date == d) = [⟨a, d, st⟩] := by
            rw [List.filter_append, hnil]
            simp
          refine ⟨?_, ?_, ?_⟩
          · rw [hstore2]
            simp [markStudentAttendance, h1, h2, hfilter2]
          · rw [hstore2]
            simp [markStudentAttendance, h1, h2, hfilter2]
          · rw [hstore2]
            simp
      · simp [markStudentAttendance, h1, h2] at hcr

/-- Witness for C7's duplicate rejection at a concrete store. -/
theorem c7_witness :
    markStudentAttendance ["A"] [⟨"A", 3, "present"⟩] "A" 3 "absent"
      = (.duplicate, [⟨"A", 3, "present"⟩]) :=
  c7_duplicate_rejected.1 ["A"] [⟨"A", 3, "present"⟩] "A" 3 "absent"
    (by simp [pairwiseDistinctPairs]) (by decide) (by decide) (by decide)
    ⟨⟨"A", 3, "present"⟩, by simp, rfl, rfl⟩

end Aurora
